import Mathlib

/-!
Verification of the camera price scraper (src/scraper/scrape_prices.py).

The Python module is shallowly embedded below.  Numeric prices are modelled
with exact rationals (the inputs of interest are short decimal numerals, on
which Python float equality against the decimal literal coincides with exact
rational equality).  File and network effects are modelled by passing the
would-be result of the effect as an explicit argument: a fetched page becomes
a function from CSS selector strings to the optionally matched element, and
the persisted snapshot file becomes an `Option` that is `none` when the file
is missing or fails to decode as JSON.
-/

namespace CameraPricing

/-- Characters kept by the cleaning step of `parse_price`
(Python: `re.sub(r'[^\d.]', '', price_text)` keeps digits and dots). -/
def keepChar (c : Char) : Bool := c.isDigit || c == '.'

/-- Numeric value of a digit string, most significant digit first. -/
def natVal (l : List Char) : ℕ := l.foldl (fun a c => 10 * a + (c.toNat - 48)) 0

/-- Python `float(s)` on a string made only of digits and dots: succeeds when
there is at most one dot and at least one digit, returning the exact decimal
value; otherwise raises (modelled as `none`). -/
def floatOfDigitsDots (l : List Char) : Option ℚ :=
  if l.count '.' = 0 then
    if l = [] then none else some ((natVal l : ℚ))
  else if l.count '.' = 1 then
    let ip := l.takeWhile (fun c => c != '.')
    let fp := (l.dropWhile (fun c => c != '.')).drop 1
    if ip = [] ∧ fp = [] then none
    else some ((natVal ip : ℚ) + (natVal fp : ℚ) / 10 ^ fp.length)
  else none

/-- Embedding of `parse_price` (scrape_prices.py lines 54-73): `None` input and
the empty string return `None`; otherwise every character that is not a digit
or a dot is stripped and the rest is parsed as a float, with parse failure
returning `None`. -/
def parse_price : Option String → Option ℚ
  | none => none
  | some s => if s.data = [] then none else floatOfDigitsDots (s.data.filter keepChar)

/-- A matched HTML element: its stripped text content
(`get_text(strip=True)`) and its optional `content` attribute. -/
structure Element where
  text : String
  content : Option String
deriving DecidableEq

/-- The fixed ordered fallback selector list of `fetch_price`
(scrape_prices.py lines 100-107). -/
def fallback_selectors : List String :=
  ["[class*=\"price\"]",
   "[id*=\"price\"]",
   ".product-price",
   ".current-price",
   "span[itemprop=\"price\"]",
   "meta[itemprop=\"price\"]"]

/-- Truthiness of `element.get("content")`: the attribute is present and is a
non-empty string. -/
def contentTruthy (el : Element) : Bool :=
  match el.content with
  | some s => s != ""
  | none => false

/-- Embedding of the fallback loop of `fetch_price` (lines 109-117): for each
selector in order, if it matches an element then (a) a truthy `content`
attribute returns `parse_price` of that attribute unconditionally, else (b)
the text price is returned when it is truthy (parses to a nonzero number),
otherwise the loop continues; `None` when the list is exhausted (line 119). -/
def try_fallbacks (doc : String → Option Element) : List String → Option ℚ
  | [] => none
  | sel :: rest =>
    match doc sel with
    | none => try_fallbacks doc rest
    | some el =>
      if contentTruthy el then parse_price el.content
      else
        match parse_price (some el.text) with
        | none => try_fallbacks doc rest
        | some p => if p = 0 then try_fallbacks doc rest else some p

/-- Embedding of the extraction part of `fetch_price` (lines 93-119), after the
page has been fetched and parsed into `doc`: if the primary selector matches an
element, return `parse_price` of its text immediately (lines 95-97); only when
it matches nothing are the fallback selectors tried. -/
def extract_price (doc : String → Option Element) (price_selector : String) : Option ℚ :=
  match doc price_selector with
  | some el => parse_price (some el.text)
  | none => try_fallbacks doc fallback_selectors

/-- Embedding of `fetch_price` (lines 76-126).  `pages` maps a URL to the
fetched and soup-parsed document, or `none` when the request or parse raised
(the `except` arms at lines 121-126 turn any such failure into `None`). -/
def fetch_price (pages : String → Option (String → Option Element))
    (url price_selector : String) : Option ℚ :=
  match pages url with
  | none => none
  | some doc => extract_price doc price_selector

/-- One configured target (an entry of cameras.json).  `Option` fields model
keys the configuration may omit; the code reads them with `.get` defaults. -/
structure Camera where
  id : String
  name : String
  model : String
  category : String
  url : String
  retailer : Option String
  price_selector : Option String
  enabled : Option Bool
  description : Option String
deriving DecidableEq

/-- One result dict built by `scrape_all_cameras` (lines 150-159). -/
structure Reading where
  id : String
  name : String
  model : String
  category : String
  price : Option ℚ
  retailer : String
  url : String
  description : String
deriving DecidableEq

/-- The result dict built for one camera (lines 148-159). -/
def build_reading (pages : String → Option (String → Option Element))
    (camera : Camera) : Reading :=
  { id := camera.id
    name := camera.name
    model := camera.model
    category := camera.category
    price := fetch_price pages camera.url (camera.price_selector.getD ".price")
    retailer := camera.retailer.getD "Unknown"
    url := camera.url
    description := camera.description.getD "" }

/-- Embedding of the loop of `scrape_all_cameras` (lines 139-168): cameras
whose `enabled` key is absent default to enabled (line 142); disabled cameras
are skipped and produce no reading. -/
def scrape_all_cameras (pages : String → Option (String → Option Element)) :
    List Camera → List Reading
  | [] => []
  | camera :: rest =>
    if camera.enabled.getD true then
      build_reading pages camera :: scrape_all_cameras pages rest
    else
      scrape_all_cameras pages rest

/-- The persisted snapshot data (the JSON object of prices.json). -/
structure SnapshotData where
  cameras : List Reading
  last_updated : Option String
deriving DecidableEq

/-- Embedding of `load_existing_prices` (lines 171-177).  The argument is the
result of opening and JSON-decoding the output file, `none` when the file is
missing or the decode raised; both are caught and replaced by the empty
snapshot. -/
def load_existing_prices (fileContents : Option SnapshotData) : SnapshotData :=
  match fileContents with
  | some d => d
  | none => { cameras := [], last_updated := none }

/-- The dict comprehension of `merge_prices` (line 185):
`{c["id"]: c.get("price") for c in existing_data.get("cameras", [])}`.
A Python dict built by iteration keeps the last value written for a key, hence
the lookup on the reversed list.  `some p` means the id is a key of the dict
and its stored (possibly null) price is `p`. -/
def existing_price_map (existing : SnapshotData) (i : String) : Option (Option ℚ) :=
  (existing.cameras.reverse.find? (fun c => c.id == i)).map (fun c => c.price)

/-- The body of the merge loop (lines 187-190) for one fresh reading: when its
price is null and its id is a key of the existing-price dict, the stored price
is substituted; nothing else changes. -/
def merge_one (existing : SnapshotData) (camera : Reading) : Reading :=
  if camera.price = none then
    match existing_price_map existing camera.id with
    | some p => { camera with price := p }
    | none => camera
  else camera

/-- Embedding of `merge_prices` (lines 180-192): the loop updates each fresh
reading in place and the fresh list is returned. -/
def merge_prices (new_cameras : List Reading) (existing : SnapshotData) : List Reading :=
  new_cameras.map (merge_one existing)

/-! Concrete inputs used to evaluate the model at specific points. -/

/-- A page whose primary selector `#p` matches an element with unparseable
text, while the first fallback selector matches a parseable price. -/
def docPrimaryUnparseable : String → Option Element := fun sel =>
  if sel = "#p" then some { text := "abc", content := none }
  else if sel = "[class*=\"price\"]" then some { text := "$5", content := none }
  else none

/-- A page where no primary selector matches, the first fallback selector
matches an element whose `content` attribute is unparseable, and the second
fallback selector matches a parseable price. -/
def docContentStops : String → Option Element := fun sel =>
  if sel = "[class*=\"price\"]" then some { text := "", content := some "abc" }
  else if sel = "[id*=\"price\"]" then some { text := "$7", content := none }
  else none

/-- A fetch oracle on which every request fails. -/
def pagesNone : String → Option (String → Option Element) := fun _ => none

/-- A previously persisted reading for `cam1` at price 199.99. -/
def readingStale : Reading :=
  { id := "cam1", name := "Cam One", model := "M1", category := "wired",
    price := some ((19999 : ℚ) / 100), retailer := "Shop", url := "http://a",
    description := "" }

/-- A fresh reading for `cam1` whose extraction failed. -/
def readingFreshMissing : Reading :=
  { id := "cam1", name := "Cam One", model := "M1", category := "wired",
    price := none, retailer := "Shop", url := "http://a", description := "" }

/-- A reading for `cam2` with no price in any snapshot. -/
def readingNeverPriced : Reading :=
  { id := "cam2", name := "Cam Two", model := "M2", category := "dome",
    price := none, retailer := "Shop", url := "http://b", description := "" }

/-- A prior snapshot containing `cam1` at 199.99. -/
def snapPrior : SnapshotData :=
  { cameras := [readingStale], last_updated := some "2026-01-01T00:00:00+00:00" }

/-- A snapshot with two distinct targets, used for the self-merge check. -/
def snapSelf : SnapshotData :=
  { cameras := [readingStale, readingNeverPriced], last_updated := none }

/-- A disabled target with identifier `cam1`. -/
def camDisabled : Camera :=
  { id := "cam1", name := "Cam One", model := "M1", category := "wired",
    url := "http://a", retailer := some "Shop", price_selector := some "#p",
    enabled := some false, description := none }

/-- A target that omits both the `enabled` flag and the price selector. -/
def camDefaults : Camera :=
  { id := "cam3", name := "Cam Three", model := "M3", category := "ptz",
    url := "http://c", retailer := none, price_selector := none,
    enabled := none, description := none }

/-! Helper lemmas about the numeric parsing model. -/

lemma parse_price_mk {l : List Char} (h : l ≠ []) :
    parse_price (some (String.mk l)) = floatOfDigitsDots (l.filter keepChar) := by
  simp [parse_price, h]

lemma keep_of_digit {c : Char} (h : c.isDigit = true) : keepChar c = true := by
  simp [keepChar, h]

lemma digit_ne_dot {c : Char} (h : c.isDigit = true) : c ≠ '.' := by
  intro hc
  subst hc
  exact absurd h (by decide)

lemma filter_keep_digits {d : List Char} (h : ∀ c ∈ d, c.isDigit = true) :
    d.filter keepChar = d :=
  List.filter_eq_self.mpr fun c hc => keep_of_digit (h c hc)

lemma filter_keep_cons_drop {c : Char} (hc : keepChar c = false) (l : List Char) :
    (c :: l).filter keepChar = l.filter keepChar :=
  List.filter_cons_of_neg (by simp [hc])

lemma count_dot_digits {d : List Char} (h : ∀ c ∈ d, c.isDigit = true) :
    d.count '.' = 0 :=
  List.count_eq_zero.mpr fun hmem => digit_ne_dot (h _ hmem) rfl

lemma float_digits {d : List Char} (hd : d ≠ []) (h : ∀ c ∈ d, c.isDigit = true) :
    floatOfDigitsDots d = some ((natVal d : ℚ)) := by
  unfold floatOfDigitsDots
  rw [count_dot_digits h]
  simp [hd]

lemma takeWhile_dot_split {d1 d3 : List Char} (h : ∀ c ∈ d1, c.isDigit = true) :
    (d1 ++ '.' :: d3).takeWhile (fun c => c != '.') = d1 ∧
    (d1 ++ '.' :: d3).dropWhile (fun c => c != '.') = '.' :: d3 := by
  induction d1 with
  | nil => simp [List.takeWhile_cons, List.dropWhile_cons]
  | cons c cs ih =>
    have hc : (c != '.') = true := by
      simpa [bne_iff_ne] using digit_ne_dot (h c (by simp))
    have ih2 := ih fun x hx => h x (by simp [hx])
    simp [List.takeWhile_cons, List.dropWhile_cons, hc, ih2.1, ih2.2]

lemma float_dotted {d1 d3 : List Char} (h1 : d1 ≠ [])
    (hd1 : ∀ c ∈ d1, c.isDigit = true) (hd3 : ∀ c ∈ d3, c.isDigit = true) :
    floatOfDigitsDots (d1 ++ '.' :: d3) =
      some ((natVal d1 : ℚ) + (natVal d3 : ℚ) / 10 ^ d3.length) := by
  have hcount : (d1 ++ '.' :: d3).count '.' = 1 := by
    rw [List.count_append, count_dot_digits hd1, List.count_cons_self,
      count_dot_digits hd3]
  have hsplit := @takeWhile_dot_split d1 d3 hd1
  unfold floatOfDigitsDots
  rw [hcount]
  simp [hsplit.1, hsplit.2, h1]

lemma filter_keep_dotted {d1 d3 : List Char}
    (hd1 : ∀ c ∈ d1, c.isDigit = true) (hd3 : ∀ c ∈ d3, c.isDigit = true) :
    (d1 ++ '.' :: d3).filter keepChar = d1 ++ '.' :: d3 := by
  rw [List.filter_append, filter_keep_digits hd1,
    List.filter_cons_of_pos (by decide), filter_keep_digits hd3]

/-- C5: for all price texts of the shapes `$D`, `USD D`, `D USD` and
`$D,DDD.DD` (`D` = digits, here also allowing a two-digit decimal part on the
first three shapes, as in the examples of the claim), `parse_price` returns
the expected numeric value exactly; in particular `"$1,299.99"` parses to
1299.99 and `"USD 149.99"` parses to 149.99. -/
theorem parse_price_shapes (d d1 d2 d3 : List Char)
    (hd0 : d ≠ []) (hd : ∀ c ∈ d, c.isDigit = true)
    (h10 : d1 ≠ []) (h1 : ∀ c ∈ d1, c.isDigit = true)
    (h2 : ∀ c ∈ d2, c.isDigit = true)
    (h3 : ∀ c ∈ d3, c.isDigit = true) (h3l : d3.length = 2) :
    parse_price (some (String.mk ('$' :: d))) = some ((natVal d : ℚ)) ∧
    parse_price (some (String.mk ('U' :: 'S' :: 'D' :: ' ' :: d))) =
      some ((natVal d : ℚ)) ∧
    parse_price (some (String.mk (d ++ [' ', 'U', 'S', 'D']))) =
      some ((natVal d : ℚ)) ∧
    parse_price (some (String.mk ('$' :: (d1 ++ '.' :: d3)))) =
      some ((natVal d1 : ℚ) + (natVal d3 : ℚ) / 100) ∧
    parse_price (some (String.mk ('U' :: 'S' :: 'D' :: ' ' :: (d1 ++ '.' :: d3)))) =
      some ((natVal d1 : ℚ) + (natVal d3 : ℚ) / 100) ∧
    parse_price (some (String.mk ((d1 ++ '.' :: d3) ++ [' ', 'U', 'S', 'D']))) =
      some ((natVal d1 : ℚ) + (natVal d3 : ℚ) / 100) ∧
    parse_price (some (String.mk ('$' :: (d1 ++ ',' :: (d2 ++ '.' :: d3))))) =
      some ((natVal (d1 ++ d2) : ℚ) + (natVal d3 : ℚ) / 100) := by
  have hrest : [' ', 'U', 'S', 'D'].filter keepChar = [] := rfl
  have hdot1 : d1 ++ '.' :: d3 ≠ [] := by simp [h10]
  have hflt := filter_keep_dotted h1 h3
  have hval : ((10 : ℚ) ^ d3.length) = 100 := by rw [h3l]; norm_num
  have hdotted := float_dotted h10 h1 h3
  rw [hval] at hdotted
  refine ⟨?_, ?_, ?_, ?_, ?_, ?_, ?_⟩
  · rw [parse_price_mk (by simp), filter_keep_cons_drop (by decide),
      filter_keep_digits hd, float_digits hd0 hd]
  · rw [parse_price_mk (by simp), filter_keep_cons_drop (by decide),
      filter_keep_cons_drop (by decide), filter_keep_cons_drop (by decide),
      filter_keep_cons_drop (by decide), filter_keep_digits hd,
      float_digits hd0 hd]
  · rw [parse_price_mk (by simp [hd0]), List.filter_append,
      filter_keep_digits hd, hrest, List.append_nil, float_digits hd0 hd]
  · rw [parse_price_mk (by simp), filter_keep_cons_drop (by decide), hflt,
      hdotted]
  · rw [parse_price_mk (by simp), filter_keep_cons_drop (by decide),
      filter_keep_cons_drop (by decide), filter_keep_cons_drop (by decide),
      filter_keep_cons_drop (by decide), hflt, hdotted]
  · rw [parse_price_mk (by simp [hdot1]), List.filter_append, hflt, hrest,
      List.append_nil, hdotted]
  · have h12 : ∀ c ∈ d1 ++ d2, c.isDigit = true := by
      intro c hc
      rcases List.mem_append.mp hc with h | h
      · exact h1 c h
      · exact h2 c h
    have h120 : d1 ++ d2 ≠ [] := by simp [h10]
    have hdotted2 := float_dotted h120 h12 h3
    rw [hval] at hdotted2
    rw [parse_price_mk (by simp), filter_keep_cons_drop (by decide),
      List.filter_append, filter_keep_digits h1,
      filter_keep_cons_drop (by decide), filter_keep_dotted h2 h3,
      show d1 ++ (d2 ++ '.' :: d3) = (d1 ++ d2) ++ '.' :: d3 from
        (List.append_assoc d1 d2 ('.' :: d3)).symm,
      hdotted2]

/-- C5 witness: the two example texts of the claim evaluate as stated,
`"$1,299.99"` to 1299.99 and `"USD 149.99"` to 149.99. -/
theorem parse_price_shapes_witness :
    parse_price (some (String.mk ['$', '1', ',', '2', '9', '9', '.', '9', '9'])) =
      some ((129999 : ℚ) / 100) ∧
    parse_price (some (String.mk ['U', 'S', 'D', ' ', '1', '4', '9', '.', '9', '9'])) =
      some ((14999 : ℚ) / 100) := by
  have ha := parse_price_shapes ['1'] ['1'] ['2', '9', '9'] ['9', '9']
    (by decide) (by decide) (by decide) (by decide) (by decide) (by decide) rfl
  have hb := parse_price_shapes ['1'] ['1', '4', '9'] [] ['9', '9']
    (by decide) (by decide) (by decide) (by decide) (by decide) (by decide) rfl
  refine ⟨ha.2.2.2.2.2.2.trans ?_, hb.2.2.2.2.1.trans ?_⟩
  · rw [show natVal (['1'] ++ ['2', '9', '9']) = 1299 from rfl,
      show natVal ['9', '9'] = 99 from rfl]
    norm_num [Option.some.injEq]
  · rw [show natVal ['1', '4', '9'] = 149 from rfl,
      show natVal ['9', '9'] = 99 from rfl]
    norm_num [Option.some.injEq]

/-- C6: `parse_price` of a null text, of the empty text, or of any text that
contains no digit and no decimal point is `none`; the embedding is a total
function, so no exception is possible. -/
theorem parse_price_nonnumeric_none :
    parse_price none = none ∧
    parse_price (some (String.mk [])) = none ∧
    ∀ s : String, (∀ c ∈ s.data, c.isDigit = false ∧ c ≠ '.') →
      parse_price (some s) = none := by
  refine ⟨rfl, rfl, ?_⟩
  intro s h
  by_cases hs : s.data = []
  · simp [parse_price, hs]
  · have hfil : s.data.filter keepChar = [] := by
      rw [List.filter_eq_nil_iff]
      intro c hc
      have hc2 := h c hc
      simp [keepChar, hc2.1, hc2.2]
    have hnone : floatOfDigitsDots [] = none := rfl
    simp [parse_price, hs, hfil, hnone]

/-- C6 witness: the fully non-numeric text `"N/A"` parses to `none`. -/
theorem parse_price_nonnumeric_none_witness :
    parse_price (some (String.mk ['N', '/', 'A'])) = none :=
  parse_price_nonnumeric_none.2.2 (String.mk ['N', '/', 'A']) (by decide)

/-- C1 counterexample: on `docPrimaryUnparseable` the primary selector `#p`
matches an element whose text `"abc"` does not parse, and extraction returns
`none` immediately, although iterating the fallback selectors would have
produced the price 5 from the first fallback selector. -/
theorem primary_unparseable_skips_fallbacks :
    docPrimaryUnparseable "#p" = some { text := "abc", content := none } ∧
    parse_price (some "abc") = none ∧
    extract_price docPrimaryUnparseable "#p" = none ∧
    try_fallbacks docPrimaryUnparseable fallback_selectors = some 5 := by
  decide

/-- C1 amended: the fallback selectors are iterated only when the primary
selector yields no element; when the primary selector matches an element, the
parse of its text is returned immediately, absent when unparseable, and the
fallback selectors are never consulted. -/
theorem primary_match_returns_immediately (doc : String → Option Element)
    (sel : String) :
    (∀ el, doc sel = some el →
      extract_price doc sel = parse_price (some el.text)) ∧
    (doc sel = none →
      extract_price doc sel = try_fallbacks doc fallback_selectors) := by
  constructor
  · intro el h
    simp [extract_price, h]
  · intro h
    simp [extract_price, h]

/-- C1 witness: both branches of the amended statement evaluated on
`docPrimaryUnparseable`, at a matching and at a non-matching primary
selector. -/
theorem primary_match_returns_immediately_witness :
    extract_price docPrimaryUnparseable "#p" = parse_price (some "abc") ∧
    extract_price docPrimaryUnparseable "#q" =
      try_fallbacks docPrimaryUnparseable fallback_selectors :=
  ⟨(primary_match_returns_immediately docPrimaryUnparseable "#p").1
      { text := "abc", content := none } (by decide),
    (primary_match_returns_immediately docPrimaryUnparseable "#q").2 (by decide)⟩

/-- C2 counterexample: on `docContentStops` the primary selector matches
nothing; the first fallback selector matches an element whose non-empty
`content` attribute `"abc"` does not parse, and the loop returns `none` right
there, although the second fallback selector matches the parseable price 7.
A matched fallback element that yields no parseable price does therefore
terminate the search. -/
theorem fallback_content_attribute_terminates :
    docContentStops "#main" = none ∧
    docContentStops "[class*=\"price\"]" =
      some { text := "", content := some "abc" } ∧
    docContentStops "[id*=\"price\"]" =
      some { text := "$7", content := none } ∧
    parse_price (some "$7") = some 7 ∧
    extract_price docContentStops "#main" = none := by
  decide

/-- C2 amended: when the primary selector matches nothing the fallback
selectors are evaluated in their fixed declared order; a selector that matches
nothing is skipped; a matched element without a non-empty `content` attribute
whose text does not parse, or parses to zero, never terminates the search; a
matched element without a non-empty `content` attribute whose text parses to a
nonzero price terminates the search with that price; but a matched element
with a non-empty `content` attribute terminates the search with the parse of
that attribute, even when that parse yields absent. -/
theorem fallback_order_semantics :
    (∀ (doc : String → Option Element) (sel : String), doc sel = none →
      extract_price doc sel = try_fallbacks doc fallback_selectors) ∧
    (∀ (doc : String → Option Element) (sel : String) (rest : List String),
      doc sel = none →
      try_fallbacks doc (sel :: rest) = try_fallbacks doc rest) ∧
    (∀ (doc : String → Option Element) (sel : String) (rest : List String)
      (el : Element), doc sel = some el → contentTruthy el = false →
      parse_price (some el.text) = none →
      try_fallbacks doc (sel :: rest) = try_fallbacks doc rest) ∧
    (∀ (doc : String → Option Element) (sel : String) (rest : List String)
      (el : Element), doc sel = some el → contentTruthy el = false →
      parse_price (some el.text) = some 0 →
      try_fallbacks doc (sel :: rest) = try_fallbacks doc rest) ∧
    (∀ (doc : String → Option Element) (sel : String) (rest : List String)
      (el : Element) (p : ℚ), doc sel = some el → contentTruthy el = false →
      parse_price (some el.text) = some p → p ≠ 0 →
      try_fallbacks doc (sel :: rest) = some p) ∧
    (∀ (doc : String → Option Element) (sel : String) (rest : List String)
      (el : Element) (s : String), doc sel = some el → el.content = some s →
      s ≠ "" → try_fallbacks doc (sel :: rest) = parse_price (some s)) := by
  refine ⟨?_, ?_, ?_, ?_, ?_, ?_⟩
  · intro doc sel h
    simp [extract_price, h]
  · intro doc sel rest h
    simp [try_fallbacks, h]
  · intro doc sel rest el h hct hp
    simp [try_fallbacks, h, hct, hp]
  · intro doc sel rest el h hct hp
    simp [try_fallbacks, h, hct, hp]
  · intro doc sel rest el p h hct hp hp0
    simp [try_fallbacks, h, hct, hp, hp0]
  · intro doc sel rest el s h hs hns
    simp [try_fallbacks, h, contentTruthy, hs, hns]

/-- C2 witness: the conjuncts of the amended statement evaluated on the
concrete documents: entering the fallback loop, skipping an unmatched
selector, continuing past an unparseable text, stopping at a nonzero text
price, and stopping at a non-empty content attribute. -/
theorem fallback_order_semantics_witness :
    extract_price docContentStops "#main" =
      try_fallbacks docContentStops fallback_selectors ∧
    try_fallbacks docPrimaryUnparseable ("#q" :: ["[class*=\"price\"]"]) =
      try_fallbacks docPrimaryUnparseable ["[class*=\"price\"]"] ∧
    try_fallbacks docPrimaryUnparseable ("#p" :: ["[class*=\"price\"]"]) =
      try_fallbacks docPrimaryUnparseable ["[class*=\"price\"]"] ∧
    try_fallbacks docPrimaryUnparseable ["[class*=\"price\"]"] = some 5 ∧
    try_fallbacks docContentStops ["[class*=\"price\"]"] =
      parse_price (some "abc") :=
  ⟨fallback_order_semantics.1 docContentStops "#main" (by decide),
    fallback_order_semantics.2.1 docPrimaryUnparseable "#q"
      ["[class*=\"price\"]"] (by decide),
    fallback_order_semantics.2.2.1 docPrimaryUnparseable "#p"
      ["[class*=\"price\"]"] { text := "abc", content := none }
      (by decide) (by decide) (by decide),
    fallback_order_semantics.2.2.2.2.1 docPrimaryUnparseable
      "[class*=\"price\"]" [] { text := "$5", content := none } (5 : ℚ)
      (by decide) (by decide) (by decide) (by norm_num),
    fallback_order_semantics.2.2.2.2.2 docContentStops "[class*=\"price\"]"
      [] { text := "", content := some "abc" } "abc" (by decide) (by decide)
      (by decide)⟩

/-! Helper lemmas about the merge and scrape model. -/

lemma existing_price_map_eq {existing : SnapshotData} {d : Reading}
    (hnd : (existing.cameras.map (fun r => r.id)).Nodup)
    (hd : d ∈ existing.cameras) :
    existing_price_map existing d.id = some d.price := by
  have hmem : d ∈ existing.cameras.reverse := List.mem_reverse.mpr hd
  have hsome : (existing.cameras.reverse.find? (fun c => c.id == d.id)).isSome := by
    rw [List.find?_isSome]
    exact ⟨d, hmem, by simp⟩
  obtain ⟨c, hc⟩ := Option.isSome_iff_exists.mp hsome
  have hcmem : c ∈ existing.cameras :=
    List.mem_reverse.mp (List.mem_of_find?_eq_some hc)
  have hcid : c.id = d.id := by simpa using List.find?_some hc
  have hcd : c = d := List.inj_on_of_nodup_map hnd hcmem hd hcid
  unfold existing_price_map
  rw [hc, hcd]
  rfl

lemma existing_price_map_none {existing : SnapshotData} {i : String}
    (h : ∀ d ∈ existing.cameras, d.id ≠ i) :
    existing_price_map existing i = none := by
  have hfind : existing.cameras.reverse.find? (fun c => c.id == i) = none :=
    List.find?_eq_none.mpr fun c hc => by
      simp [h c (List.mem_reverse.mp hc)]
  simp [existing_price_map, hfind]

lemma merge_one_id (existing : SnapshotData) (c : Reading) :
    (merge_one existing c).id = c.id := by
  unfold merge_one
  by_cases hp : c.price = none
  · rw [if_pos hp]
    cases existing_price_map existing c.id <;> rfl
  · rw [if_neg hp]

lemma merge_ids (new_cameras : List Reading) (existing : SnapshotData) :
    (merge_prices new_cameras existing).map (fun r => r.id) =
      new_cameras.map (fun r => r.id) := by
  unfold merge_prices
  rw [List.map_map]
  exact List.map_congr_left fun c _ => merge_one_id existing c

/-- C3: per fresh reading, the merge substitutes the prior price stored for
the same identifier exactly when the fresh price is absent; when the fresh
price is present, or when no prior reading carries the same identifier with a
non-null price, the fresh price is unchanged (in particular a fresh absent
price with no matching prior identifier stays absent).  The prior snapshot is
assumed to have unique identifiers, as the data model requires. -/
theorem merge_price_rule (existing : SnapshotData) (c : Reading)
    (hnd : (existing.cameras.map (fun r => r.id)).Nodup) :
    (∀ d, d ∈ existing.cameras → d.id = c.id → c.price = none →
      (merge_one existing c).price = d.price) ∧
    (c.price ≠ none → (merge_one existing c).price = c.price) ∧
    ((∀ d ∈ existing.cameras, d.id ≠ c.id ∨ d.price = none) →
      (merge_one existing c).price = c.price) := by
  refine ⟨?_, ?_, ?_⟩
  · intro d hd hdid hcp
    unfold merge_one
    rw [if_pos hcp, ← hdid, existing_price_map_eq hnd hd]
  · intro hcp
    unfold merge_one
    rw [if_neg hcp]
  · intro hall
    by_cases hcp : c.price = none
    · by_cases hex : ∃ d ∈ existing.cameras, d.id = c.id
      · obtain ⟨d, hd, hdid⟩ := hex
        have hdp : d.price = none := by
          rcases hall d hd with h | h
          · exact absurd hdid h
          · exact h
        unfold merge_one
        rw [if_pos hcp, ← hdid, existing_price_map_eq hnd hd, hdp, hcp]
      · push_neg at hex
        unfold merge_one
        rw [if_pos hcp, existing_price_map_none hex]
    · unfold merge_one
      rw [if_neg hcp]

/-- C3 witness: the fresh reading for `cam1` with absent price picks up the
prior 199.99, and the fresh reading for `cam2`, absent from the prior
snapshot, stays absent. -/
theorem merge_price_rule_witness :
    (merge_one snapPrior readingFreshMissing).price = some ((19999 : ℚ) / 100) ∧
    (merge_one snapPrior readingNeverPriced).price = none :=
  ⟨(merge_price_rule snapPrior readingFreshMissing (by decide)).1 readingStale
      (List.mem_singleton_self _) rfl rfl,
    (merge_price_rule snapPrior readingNeverPriced (by decide)).2.2 fun d hd =>
      Or.inl (by rw [List.mem_singleton.mp hd]; decide)⟩

/-- C4: a missing or undecodable snapshot file loads as the empty snapshot
(the exceptions are caught, so loading never raises in the model), and merging
any fresh readings with it returns them unchanged: every absent price stays
absent. -/
theorem missing_snapshot_merge_noop :
    load_existing_prices none = { cameras := [], last_updated := none } ∧
    ∀ new_cameras : List Reading,
      merge_prices new_cameras (load_existing_prices none) = new_cameras := by
  refine ⟨rfl, ?_⟩
  intro new_cameras
  have h1 : ∀ c : Reading, merge_one (load_existing_prices none) c = c := by
    intro c
    unfold merge_one
    rw [show existing_price_map (load_existing_prices none) c.id = none from rfl]
    split <;> rfl
  unfold merge_prices
  exact (List.map_congr_left fun c _ => h1 c).trans (List.map_id _)

/-- C7: merging a list of readings with a snapshot holding those same readings
as the previous data returns the list unchanged, prices included; identifiers
are unique within a snapshot, as the data model requires. -/
theorem merge_idempotent (s : SnapshotData)
    (hnd : (s.cameras.map (fun r => r.id)).Nodup) :
    merge_prices s.cameras s = s.cameras := by
  have h1 : ∀ c ∈ s.cameras, merge_one s c = c := by
    intro c hc
    unfold merge_one
    by_cases hp : c.price = none
    · rw [if_pos hp, existing_price_map_eq hnd hc]
    · rw [if_neg hp]
  unfold merge_prices
  exact (List.map_congr_left h1).trans (List.map_id _)

/-- C7 witness: the two-reading snapshot `snapSelf` merged with itself is
unchanged. -/
theorem merge_idempotent_witness :
    merge_prices snapSelf.cameras snapSelf = snapSelf.cameras :=
  merge_idempotent snapSelf (by decide)

/-- C8: the merge can change at most the price: mapping every merged reading
to its tuple of identifier, name, model, category, retailer, url and
description gives exactly the tuples of the fresh readings, whatever the
prior snapshot contains. -/
theorem merge_preserves_fields (new_cameras : List Reading)
    (existing : SnapshotData) :
    (merge_prices new_cameras existing).map
        (fun r => (r.id, r.name, r.model, r.category, r.retailer, r.url,
          r.description)) =
      new_cameras.map
        (fun r => (r.id, r.name, r.model, r.category, r.retailer, r.url,
          r.description)) := by
  unfold merge_prices
  rw [List.map_map]
  apply List.map_congr_left
  intro c _
  show (fun r => (r.id, r.name, r.model, r.category, r.retailer, r.url,
    r.description)) (merge_one existing c) = _
  unfold merge_one
  by_cases hp : c.price = none
  · rw [if_pos hp]
    cases existing_price_map existing c.id <;> simp
  · rw [if_neg hp]

lemma mem_scrape_ids {pages : String → Option (String → Option Element)}
    {r : Reading} :
    ∀ {l : List Camera}, r ∈ scrape_all_cameras pages l →
      r.id ∈ l.map (fun c => c.id) := by
  intro l
  induction l with
  | nil => intro h; simp [scrape_all_cameras] at h
  | cons cam rest ih =>
    intro h
    simp only [scrape_all_cameras] at h
    by_cases he : cam.enabled.getD true
    · rw [if_pos he] at h
      rcases List.mem_cons.mp h with h1 | h1
      · subst h1
        simp [build_reading]
      · simp [ih h1]
    · rw [if_neg he] at h
      simp [ih h]

lemma scrape_ids_subset {pages : String → Option (String → Option Element)}
    {l : List Camera} {x : String}
    (h : x ∈ (scrape_all_cameras pages l).map (fun r => r.id)) :
    x ∈ l.map (fun c => c.id) := by
  rcases List.mem_map.mp h with ⟨r, hr, hx⟩
  rw [← hx]
  exact mem_scrape_ids hr

lemma scrape_disabled_not_mem {pages : String → Option (String → Option Element)}
    {t : Camera} (hdis : t.enabled = some false) :
    ∀ l : List Camera, t ∈ l → (l.map (fun c => c.id)).Nodup →
      t.id ∉ (scrape_all_cameras pages l).map (fun r => r.id) := by
  intro l
  induction l with
  | nil => intro h; simp at h
  | cons cam rest ih =>
    intro ht hnd
    rw [List.map_cons, List.nodup_cons] at hnd
    rcases List.mem_cons.mp ht with h1 | h1
    · subst h1
      simp only [scrape_all_cameras]
      rw [if_neg (by simp [hdis])]
      intro hmem
      exact hnd.1 (scrape_ids_subset hmem)
    · have hti : t.id ∈ rest.map (fun c => c.id) := List.mem_map.mpr ⟨t, h1, rfl⟩
      have htid : t.id ≠ cam.id := fun he => hnd.1 (he ▸ hti)
      simp only [scrape_all_cameras]
      by_cases he : cam.enabled.getD true
      · rw [if_pos he, List.map_cons]
        intro hmem
        rcases List.mem_cons.mp hmem with h2 | h2
        · exact htid (h2.trans (by simp [build_reading]))
        · exact ih h1 hnd.2 h2
      · rw [if_neg he]
        exact ih h1 hnd.2

/-- C9: a disabled target produces no reading: its identifier is absent from
the merged snapshot readings even when the prior snapshot holds a reading for
it; target identifiers are unique in the configuration, as the data model
requires. -/
theorem disabled_target_pruned
    (pages : String → Option (String → Option Element))
    (cameras_config : List Camera) (existing : SnapshotData) (t : Camera)
    (ht : t ∈ cameras_config) (hdis : t.enabled = some false)
    (hnd : (cameras_config.map (fun c => c.id)).Nodup) :
    t.id ∉ (merge_prices (scrape_all_cameras pages cameras_config)
      existing).map (fun r => r.id) := by
  rw [merge_ids]
  exact scrape_disabled_not_mem hdis cameras_config ht hnd

/-- C9 witness: the disabled `cam1` is absent from the snapshot produced from
a one-target configuration merged against a prior snapshot that held `cam1`
at 199.99. -/
theorem disabled_target_pruned_witness :
    "cam1" ∉ (merge_prices (scrape_all_cameras pagesNone [camDisabled])
      snapPrior).map (fun r => r.id) :=
  disabled_target_pruned pagesNone [camDisabled] snapPrior camDisabled
    (List.mem_singleton_self _) rfl (by decide)

lemma mem_scrape_of_enabled {pages : String → Option (String → Option Element)}
    {t : Camera} (he : t.enabled.getD true = true) :
    ∀ l : List Camera, t ∈ l →
      build_reading pages t ∈ scrape_all_cameras pages l := by
  intro l
  induction l with
  | nil => intro h; simp at h
  | cons cam rest ih =>
    intro ht
    rcases List.mem_cons.mp ht with h1 | h1
    · subst h1
      simp only [scrape_all_cameras]
      rw [if_pos he]
      exact List.mem_cons_self _ _
    · simp only [scrape_all_cameras]
      by_cases hce : cam.enabled.getD true
      · rw [if_pos hce]
        exact List.mem_cons_of_mem _ (ih h1)
      · rw [if_neg hce]
        exact ih h1

/-- C10: a target whose `enabled` key is absent is treated as enabled: its
reading is produced and its identifier appears in the merged snapshot; and its
price is fetched with the configured selector defaulted to `.price`, so a
target with no selector key is scraped with the selector `.price` rather than
skipped or failing. -/
theorem missing_flags_defaults
    (pages : String → Option (String → Option Element))
    (cameras_config : List Camera) (existing : SnapshotData) (t : Camera)
    (ht : t ∈ cameras_config) (hen : t.enabled = none) :
    build_reading pages t ∈ scrape_all_cameras pages cameras_config ∧
    t.id ∈ (merge_prices (scrape_all_cameras pages cameras_config)
      existing).map (fun r => r.id) ∧
    (build_reading pages t).price =
      fetch_price pages t.url (t.price_selector.getD ".price") ∧
    (t.price_selector = none →
      (build_reading pages t).price = fetch_price pages t.url ".price") := by
  have he : t.enabled.getD true = true := by rw [hen]; rfl
  have h1 := @mem_scrape_of_enabled pages t he cameras_config ht
  refine ⟨h1, ?_, rfl, ?_⟩
  · rw [merge_ids]
    exact List.mem_map.mpr ⟨build_reading pages t, h1, rfl⟩
  · intro hps
    simp [build_reading, hps]

/-- C10 witness: the target `cam3`, which omits both the `enabled` flag and
the selector, is scraped, appears in the merged snapshot, and its price is
fetched with the default selector `.price`. -/
theorem missing_flags_defaults_witness :
    build_reading pagesNone camDefaults ∈
      scrape_all_cameras pagesNone [camDefaults] ∧
    "cam3" ∈ (merge_prices (scrape_all_cameras pagesNone [camDefaults])
      snapPrior).map (fun r => r.id) ∧
    (build_reading pagesNone camDefaults).price =
      fetch_price pagesNone "http://c" ".price" :=
  have h := missing_flags_defaults pagesNone [camDefaults] snapPrior camDefaults
    (List.mem_singleton_self _) rfl
  ⟨h.1, h.2.1, h.2.2.2 rfl⟩

end CameraPricing
